import Mathlib

/-!
Verification model of UK-Agent_typeC (src/uk_agentc).

Shallow embedding notes:
* Filesystem paths are modelled at two levels, matching the source's use of
  `os.path`: as component lists (`List String`, the canonical form produced
  by `os.path.abspath`) and as rendered POSIX strings (`renderAbs`), because
  `is_path_allowed` compares the *strings* with `str.startswith`.
* The process-wide configuration globals (`ROOT_DIRECTORY`,
  `SESSION_BACKUP_DIR`, the compiled `.agentignore` spec) are passed as
  explicit parameters.
* Python exceptions are modelled with `Except String`; a `try/except`
  returning a default is a `match` on the `Except` value.
-/

namespace UKAgent

/-! ## Character/string primitives (models of `str` operations used by the source) -/

/-- Boolean test: `p` is an initial segment of `s`. -/
def listIsPre {α : Type} [BEq α] : List α → List α → Bool
  | [], _ => true
  | _ :: _, [] => false
  | a :: as, b :: bs => a == b && listIsPre as bs

/-- `p` occurs as a contiguous run inside `s` (model of Python's `in` on strings). -/
def listHasSub {α : Type} [BEq α] : List α → List α → Bool
  | p, [] => listIsPre p ([] : List α)
  | p, s@(_ :: t) => listIsPre p s || listHasSub p t

/-- Model of `str.startswith`. -/
def strStartsWith (s p : String) : Bool := listIsPre p.data s.data

/-- Model of `str.endswith`. -/
def strEndsWith (s p : String) : Bool := listIsPre p.data.reverse s.data.reverse

/-- Model of Python's `pat in s` substring test. -/
def strHasSub (s pat : String) : Bool := listHasSub pat.data s.data

/-- Model of `str.lower` (ASCII letters; the source only tests ASCII keywords). -/
def lowerStr (s : String) : String := String.mk (s.data.map Char.toLower)

/-! ## Path model (`os.path` fragment used by `path_utils.py` / `file_tools.py`) -/

/-- Split a POSIX path string into its non-empty components. -/
def splitSlashAux : List Char → List Char → List (List Char)
  | [], cur => [cur.reverse]
  | c :: cs, cur => if c = '/' then cur.reverse :: splitSlashAux cs [] else splitSlashAux cs (c :: cur)

def splitSlash (s : String) : List String :=
  ((splitSlashAux s.data []).map String.mk).filter (fun t => !(t == ""))

/-- Model of `os.path.isabs`: the path starts with a slash. -/
def isAbs (s : String) : Bool :=
  match s.data with
  | [] => false
  | c :: _ => c == '/'

/-- Model of the normalisation done by `os.path.abspath`: drop `.`,
resolve `..` against the accumulated components (at the root `..` stays at the root). -/
def normalizeComps (cs : List String) : List String :=
  cs.foldl (fun acc c => if c = "." then acc else if c = ".." then acc.dropLast else acc ++ [c]) []

/-- Model of `os.path.abspath(os.path.join(root, path))` for an absolute
`root` given as components: an absolute `path` discards `root` (as
`os.path.join` does), otherwise the components are appended, then normalised. -/
def resolvePath (root : List String) (path : String) : List String :=
  normalizeComps (if isAbs path then splitSlash path else root ++ splitSlash path)

/-- Render an absolute component list back to the POSIX string `os.path` produces. -/
def renderAbs (cs : List String) : String := "/" ++ String.intercalate "/" cs

/-- Length of the longest common component run of two paths. -/
def commonPrefixLen : List String → List String → Nat
  | a :: as, b :: bs => if a = b then commonPrefixLen as bs + 1 else 0
  | _, _ => 0

/-- Model of `os.path.relpath(full, root)` on component lists. -/
def relpathComps (full root : List String) : List String :=
  let c := commonPrefixLen full root
  let ups := List.replicate (root.length - c) ".."
  let rest := full.drop c
  if ups.isEmpty && rest.isEmpty then ["."] else ups ++ rest

/-- Model of `os.path.basename` on components (last component, `""` for the root). -/
def basenameOf (cs : List String) : String := cs.getLast?.getD ""

/-- `full` lies inside the directory tree of `root` (the spec's notion of
"the resolved absolute path does not escape the root"): `root` is a
component-wise ancestor of `full`. -/
def underRoot (root full : List String) : Bool := listIsPre root full

/-! ## `os.path.splitext` extension model (used by `_backup_file_if_needed`) -/

/-- Suffix of a filename starting at its last dot, ignoring leading dots
(the behaviour of `os.path.splitext` on a basename). -/
def lastDotSuffix : List Char → Option (List Char)
  | [] => none
  | '.' :: cs =>
    match lastDotSuffix cs with
    | some s => some s
    | none => some ('.' :: cs)
  | _ :: cs => lastDotSuffix cs

def dropLeadingDots : List Char → List Char
  | '.' :: cs => dropLeadingDots cs
  | cs => cs

/-- Model of the extension part of `os.path.splitext(file_name)`. -/
def extOf (fn : String) : String :=
  match lastDotSuffix (dropLeadingDots fn.data) with
  | none => ""
  | some s => String.mk s

/-! ## Path Guard (`utils/path_utils.py`) -/

/-- The built-in deny patterns added by `_load_agentignore`:
`'.env', '.agentignore', 'env/agent.env', '**/env', '.git', 'agent_log'`.
GitWildMatch semantics specialised to these patterns: a slash-free pattern
(and `'**/env'`) matches any path having that component (which also covers
everything below an ignored directory); the anchored `'env/agent.env'`
matches that relative path and anything below it. -/
def defaultIgnoreMatch (rel : List String) : Bool :=
  rel.any (fun c => [".env", ".agentignore", ".git", "agent_log", "env"].contains c) ||
  listIsPre ["env", "agent.env"] rel

/-- The write-protected basenames checked by `is_path_allowed` when `for_read` is false. -/
def protectedWriteNames : List String := [".env", ".agentignore", "agent.env"]

/-- The body of `is_path_allowed` (everything inside its `try`), over fallible
resolution (`resolveE`, modelling `os.path.abspath`/`os.path.join`) and
fallible ignore matching (`matchE`, modelling `AGENT_IGNORE_SPEC.match_file`),
so that the enclosing `try/except` can be modelled faithfully. -/
def is_path_allowed_body (resolveE : String → Except String (List String))
    (matchE : List String → Except String Bool)
    (root : List String) (path : String) (for_read : Bool) : Except String Bool :=
  match resolveE path with
  | Except.error e => Except.error e
  | Except.ok full =>
    -- `if not full_path.startswith(ROOT_DIRECTORY): return False`
    if strStartsWith (renderAbs full) (renderAbs root) = false then Except.ok false
    else
      match matchE (relpathComps full root) with
      | Except.error e => Except.error e
      | Except.ok m =>
        -- `if AGENT_IGNORE_SPEC.match_file(relative_path): return False`
        if m then Except.ok false
        -- `if not for_read and os.path.basename(full_path) in [...]: return False`
        else if !for_read && protectedWriteNames.contains (basenameOf full) then Except.ok false
        else Except.ok true

/-- The `try/except Exception: return False` wrapper of `is_path_allowed`. -/
def is_path_allowed_guarded (resolveE : String → Except String (List String))
    (matchE : List String → Except String Bool)
    (root : List String) (path : String) (for_read : Bool) : Bool :=
  match is_path_allowed_body resolveE matchE root path for_read with
  | Except.ok b => b
  | Except.error _ => false

/-- `is_path_allowed(path, for_read)` with the exact (non-raising) path
operations and the compiled ignore spec: the union of the built-in deny
patterns and the optional `.agentignore` contents (`extra`). -/
def is_path_allowed (extra : List String → Bool) (root : List String)
    (path : String) (for_read : Bool) : Bool :=
  is_path_allowed_guarded (fun p => Except.ok (resolvePath root p))
    (fun rel => Except.ok (defaultIgnoreMatch rel || extra rel)) root path for_read

/-! ## Shared data schema (`agents/schema.py`) -/

/-- `ToolCall`: a tool name plus an argument mapping (values abstracted to strings). -/
structure ToolCall where
  tool_name : String
  arguments : List (String × String)
deriving DecidableEq, Repr

/-- `ExecutionPlan`: a thought plus an ordered list of tool calls. -/
structure ExecutionPlan where
  thought : String
  plan : List ToolCall
deriving DecidableEq, Repr

/-- `VerificationResult`. -/
structure VerificationResult where
  is_success : Bool
  feedback : String
deriving DecidableEq, Repr

/-- `ExecutionResult`. -/
structure ExecutionResult where
  status : String
  results : List String
  failed_step : Option Nat
  error_message : Option String
deriving DecidableEq, Repr

/-! ## Executor (`agents/executor.py`) -/

/-- A registered tool as the Executor sees it: its recognised argument keys
(`args_schema` property names) and its invocation, which either returns a
string result or raises (`Except.error`). The `ai_read_and_apply_changes`
special case calls the same underlying function directly, so both invocation
branches of the source are this one `run`. -/
structure ToolImpl where
  expectedArgs : List String
  run : List (String × String) → Except String String

/-- `TOOL_DISPATCHER`: tool name → tool (every stored value is callable). -/
def ToolEnv := String → Option ToolImpl

/-- `problematic_tools = ["modify_code"]`. -/
def problematic_tools : List String := ["modify_code"]

/-- The argument re-filtering done per step: keep only keys in `expected_args`. -/
def sanitizeArgs (t : ToolImpl) (args : List (String × String)) : List (String × String) :=
  args.filter (fun kv => t.expectedArgs.contains kv.1)

/-- The error-marker scan applied to results of problematic tools:
`"エラー" in result_str or "error" in result_str.lower()`. -/
def hasErrorMarker (r : String) : Bool :=
  strHasSub r "エラー" || strHasSub (lowerStr r) "error"

/-- What happens to one plan step, in the order the source checks it:
missing dispatcher entry, raised exception, error-marker match for a
problematic tool, or a successful string result. -/
inductive StepOutcome where
  | notFound : StepOutcome
  | exn : String → StepOutcome
  | reported : String → StepOutcome
  | ok : String → StepOutcome
deriving DecidableEq, Repr

def stepOutcome (env : ToolEnv) (step : ToolCall) : StepOutcome :=
  match env step.tool_name with
  | none => StepOutcome.notFound
  | some t =>
    match t.run (sanitizeArgs t step.arguments) with
    | Except.error e => StepOutcome.exn e
    | Except.ok r =>
      if problematic_tools.contains step.tool_name && hasErrorMarker r then StepOutcome.reported r
      else StepOutcome.ok r

/-- The error text the Executor records for a failing step. -/
def stepErrText (step : ToolCall) : StepOutcome → String
  | StepOutcome.notFound => "エラー: ツール '" ++ step.tool_name ++ "' が見つかりません。"
  | StepOutcome.exn e =>
    "ツール '" ++ step.tool_name ++ "' の実行中に予期せぬ例外が発生しました: " ++ e
  | StepOutcome.reported r =>
    "ツール '" ++ step.tool_name ++ "' がエラーを報告しました: " ++ r
  | StepOutcome.ok r => r

/-- Whether handling the step actually invoked the tool (everything except
the dispatcher-lookup failure happens after the call into the tool). -/
def stepInvokes : StepOutcome → Bool
  | StepOutcome.notFound => false
  | _ => true

def isOkOutcome : StepOutcome → Bool
  | StepOutcome.ok _ => true
  | _ => false

/-- The step loop of `execute_plan`: `i` is the 1-based index of the current
step, `results` the accumulated result strings, `log` the 1-based indices of
the steps whose tool was invoked (making "later tools are never invoked"
expressible). Narration `yield`s are not modelled; the terminal
`ExecutionResult` is returned together with the invocation log. -/
def execSteps (env : ToolEnv) :
    List ToolCall → Nat → List String → List Nat → ExecutionResult × List Nat
  | [], _, results, log => (⟨"success", results, none, none⟩, log)
  | step :: rest, i, results, log =>
    let log2 := if stepInvokes (stepOutcome env step) then log ++ [i] else log
    match stepOutcome env step with
    | StepOutcome.ok r => execSteps env rest (i + 1) (results ++ [r]) log2
    | o => (⟨"failure", results ++ [stepErrText step o], some i, some (stepErrText step o)⟩, log2)

/-- `execute_plan`: empty plan short-circuits to success with the thought as
sole result; otherwise the steps run in order, fail-fast. -/
def execute_plan (env : ToolEnv) (plan : ExecutionPlan) : ExecutionResult × List Nat :=
  if plan.plan.isEmpty then (⟨"success", [plan.thought], none, none⟩, [])
  else execSteps env plan.plan 1 [] []

/-! ## Plan validation and planning (`agents/supervisor.py`) -/

/-- What `_validate_plan` knows about one tool: its recognised argument keys
(schema properties) and the required ones. -/
structure ToolSchema where
  props : List String
  required : List String

/-- One step of `_validate_plan`'s loop: unknown tool is a fatal error;
otherwise unexpected argument keys are stripped (non-fatal) and the schema is
instantiated from the remaining arguments, which fails when a required key is
missing (value types are abstracted away). Returns the sanitised step. -/
def validateStep (reg : String → Option ToolSchema) (step : ToolCall) : Except String ToolCall :=
  match reg step.tool_name with
  | none => Except.error ("計画に含まれるツール '" ++ step.tool_name ++ "' は存在しません。")
  | some sch =>
    let args2 := step.arguments.filter (fun kv => sch.props.contains kv.1)
    if sch.required.all (fun r => args2.any (fun kv => kv.1 == r)) then
      Except.ok ⟨step.tool_name, args2⟩
    else
      Except.error ("ツール '" ++ step.tool_name ++ "' の引数が不正です（必須引数の不足や型の誤り）。")

def validateSteps (reg : String → Option ToolSchema) : List ToolCall → Except String (List ToolCall)
  | [] => Except.ok []
  | st :: rest =>
    match validateStep reg st with
    | Except.error e => Except.error e
    | Except.ok st2 =>
      match validateSteps reg rest with
      | Except.error e => Except.error e
      | Except.ok r2 => Except.ok (st2 :: r2)

/-- `_validate_plan`: an empty plan is trivially valid; otherwise every step
is checked in order, and the in-place argument stripping is modelled by
returning the sanitised plan. -/
def _validate_plan (reg : String → Option ToolSchema) (plan : ExecutionPlan) :
    Except String ExecutionPlan :=
  if plan.plan.isEmpty then Except.ok plan
  else
    match validateSteps reg plan.plan with
    | Except.error e => Except.error e
    | Except.ok steps2 => Except.ok ⟨plan.thought, steps2⟩

/-- `create_plan`'s validation-failure correction loop. The source, on a
validation error, does `return create_plan(messages, tools,
feedback=validation_error)` — plain recursion with no retry counter — so the
only bound on the loop is the Python interpreter's call-stack limit; `fuel`
makes that recursion depth explicit. `planner` abstracts the structured LLM
call (invoke + parse), which in the model is total; its own
`ValidationError` retry path recurses identically and is subsumed. -/
def create_plan (reg : String → Option ToolSchema)
    (planner : Option String → ExecutionPlan) :
    Option String → Nat → Option ExecutionPlan
  | _, 0 => none
  | feedback, fuel + 1 =>
    let plan := planner feedback
    match _validate_plan reg plan with
    | Except.error err => create_plan reg planner (some err) fuel
    | Except.ok plan2 => some plan2

/-! ## Verifier (`agents/verifier.py`) -/

/-- `verify_task`'s handling of the judgment call: `judge` is the structured
LLM invocation (its `Except.error` is a raised exception). The
`try/except Exception` downgrades any exception to a synthesized failure with
the fixed generic feedback of the source. -/
def verify_task (judge : Except String VerificationResult) : VerificationResult :=
  match judge with
  | Except.ok r => r
  | Except.error _ => ⟨false, "検証の最終判断プロセスで予期せぬエラーが発生しました。"⟩

/-! ## Orchestration loop (`main.py run_agent_cycle`) -/

/-- `format_execution_summary` (`agents/executor.py`, duplicated inline in
`run_agent_cycle`). Python renders `None` fields as the string `"None"`. -/
def format_execution_summary (er : ExecutionResult) : String :=
  if er.status == "success" then
    "計画の実行が正常に完了しました。各ステップの結果は以下の通りです:" ++ "\n" ++
      String.intercalate "\n" er.results
  else
    (if er.results.isEmpty then "計画の実行が失敗しました。" ++ "\n"
     else "計画の実行が失敗しました。" ++ "\n" ++ "成功したステップの結果:" ++ "\n" ++
       String.intercalate "\n" er.results ++ "\n") ++
    "失敗したステップ " ++ (match er.failed_step with | some n => Nat.repr n | none => "None") ++
    ": " ++ (match er.error_message with | some e => e | none => "None")

/-- The collaborators `run_agent_cycle` calls (`main.py` imports them; the
claim's scenario stubs planner and verifier). `planner` abstracts what the
call site `create_plan(conversation_history, feedback)` returns — note the
source passes `feedback` in `create_plan`'s `tools` parameter slot there,
which only matters when the real `create_plan` sits behind it, not under the
claim's stub. `tools` is the dispatcher used by `execute_plan`, `verifier`
is `verify_task(objective, thought, summary)` and `reporter` is
`create_final_report` (both are dead code in `run_agent_cycle` as written,
see `runAttempts`; they are kept because the source names them). -/
structure OrchestrationEnv where
  planner : List String → Option String → ExecutionPlan
  tools : ToolEnv
  verifier : String → String → String → VerificationResult
  reporter : String → ExecutionPlan → ExecutionResult → String

/-- `max_attempts = 3` in `run_agent_cycle`. -/
def max_attempts : Nat := 3

/-- The value `main.py` binds at `execution_result = execute_plan(plan)`:
calling a Python generator function creates a generator object without
running any of its body. What exhausting the generator would eventually
return is carried for reference, but `run_agent_cycle` never iterates it. -/
structure GeneratorObj where
  final : ExecutionResult × List Nat

/-- Attribute lookup on the generator object: a generator exposes none of
the `ExecutionResult` fields, so reading `status` (or any of them) raises
`AttributeError`. The lookup can only raise, hence the `Empty` payload. -/
def generatorGetAttr (_ : GeneratorObj) (attr : String) : Except String Empty :=
  Except.error ("AttributeError: 'generator' object has no attribute '" ++ attr ++ "'")

/-- The `for attempt in range(max_attempts)` loop of `run_agent_cycle`,
translated as written. `remaining` counts iterations left and the
planner-call count is threaded so the attempt budget is observable;
`present_plan` always returns `True` in the source, so the cancellation
return is unreachable and omitted. Every path through the body exits the
loop: an empty plan breaks with the thought as final result, and a
non-empty plan reaches `execution_result = execute_plan(plan)` — which
binds the unconsumed generator object — followed by
`execution_result.status`, whose `AttributeError` is caught nowhere in
`run_agent_cycle` and aborts it. The summary/verify/report/feedback code
below that line, the `試行 N は失敗しました` final message and every later
iteration are unreachable, so no recursive call occurs. Returns
(result or propagated exception, planner calls made). -/
def runAttempts (env : OrchestrationEnv) (_objective : String) :
    Nat → Nat → Option String → List String → String → Nat →
      Except String (String × List String) × Nat
  | 0, _, _, history, finalSoFar, calls => (Except.ok (finalSoFar, history), calls)
  | _remaining + 1, _attemptIdx, feedback, history, _finalSoFar, calls =>
    let plan := env.planner history feedback
    let calls2 := calls + 1
    if plan.plan.isEmpty then (Except.ok (plan.thought, history), calls2)
    else
      -- `execution_result = execute_plan(plan)` — the generator object.
      let execution_result : GeneratorObj := ⟨execute_plan env.tools plan⟩
      -- `if execution_result.status == "success":` — raises AttributeError.
      match generatorGetAttr execution_result "status" with
      | Except.error e => (Except.error e, calls2)
      | Except.ok x => x.elim

/-- `run_agent_cycle`: append the objective to the history and run the
attempt loop; when the loop ends normally the final result is appended to
the history and returned, while an exception escaping the loop propagates
to the caller (`Except.error`) and skips that append. -/
def run_agent_cycle (env : OrchestrationEnv) (user_input : String)
    (conversation_history : List String) : Except String (String × List String) × Nat :=
  let history := conversation_history ++ [user_input]
  match runAttempts env user_input max_attempts 1 none history "" 0 with
  | (Except.ok fh, calls) => (Except.ok (fh.1, fh.2 ++ [fh.1]), calls)
  | (Except.error e, calls) => (Except.error e, calls)

/-! ## Shell tool (`tools/system_tools.py`) -/

def FORBIDDEN_COMMANDS : List String :=
  ["rm", "sudo", "su", "reboot", "shutdown", "poweroff", "halt",
   "mv", "cp", "chmod", "chown",
   "del", "format", "rd", "erase", "taskkill", "net user", "powershell", "wmic", "reg"]

/-- The per-keyword test of `run_shell_command` on the lowercased command:
`f" {k} " in f" {cl} "`, or at the start, at the end, or the whole command. -/
def matchesKeyword (cl k : String) : Bool :=
  strHasSub (" " ++ cl ++ " ") (" " ++ k ++ " ") ||
  strStartsWith cl (k ++ " ") ||
  strEndsWith cl (" " ++ k) ||
  cl == k

/-- `run_shell_command`: scan `FORBIDDEN_COMMANDS` in order; on a hit return
the refusal naming that keyword without touching the subprocess. `exec`
abstracts `subprocess.run` together with its timeout/exception formatting;
the returned Bool records whether the subprocess was spawned. -/
def run_shell_command (exec : String → String) (command : String) : String × Bool :=
  let cl := lowerStr command
  match FORBIDDEN_COMMANDS.find? (fun k => matchesKeyword cl k) with
  | some k =>
    ("Error: Command contains forbidden keyword: '" ++ k ++
      "'. Execution denied for security reasons.", false)
  | none => (exec command, true)

/-! ## File tools: pre-write backup (`tools/file_tools.py`, `config.py`) -/

/-- The filesystem as a map from absolute component paths to file contents
(bytes abstracted to `String`); `none` means no regular file there.
Directory creation (`os.makedirs`) has no observable effect in this model. -/
def Fs := List String → Option String

def fsUpdate (fs : Fs) (p : List String) (c : String) : Fs :=
  fun q => if q = p then some c else fs q

/-- `CODE_FILE_EXTENSIONS` from `config.py`. -/
def CODE_FILE_EXTENSIONS : List String :=
  [".py", ".bat", ".sh", ".js", ".ts", ".jsx", ".tsx",
   ".html", ".css", ".scss", ".json", ".yml", ".yaml",
   ".toml", ".md", ".txt", "Dockerfile"]

/-- The backup trigger of `_backup_file_if_needed`:
`extension in CODE_FILE_EXTENSIONS or file_name in CODE_FILE_EXTENSIONS`. -/
def trackable (file_name : String) : Bool :=
  CODE_FILE_EXTENSIONS.contains (extOf file_name) || CODE_FILE_EXTENSIONS.contains file_name

/-- `_backup_file_if_needed(full_path)`: if a regular file exists there and
its name is trackable, copy its current bytes to
`SESSION_BACKUP_DIR / relpath(full_path, ROOT_DIRECTORY)` and report the
backup location; otherwise do nothing. (`shutil.copy2` is modelled as always
succeeding; its failure branch only swaps the message for a warning.) -/
def _backup_file_if_needed (fs : Fs) (root backupDir full : List String) : String × Fs :=
  match fs full with
  | none => ("", fs)
  | some old =>
    if trackable (basenameOf full) then
      let dest := backupDir ++ relpathComps full root
      ("バックアップを作成しました: " ++ renderAbs dest, fsUpdate fs dest old)
    else ("", fs)

/-- `write_file(file_path, content)`: deny via the Path Guard, otherwise back
up the pre-write content if needed and then overwrite the file. The OS
resolves `..`/`.` in the opened path, which `resolvePath` models. -/
def write_file (extra : List String → Bool) (root backupDir : List String)
    (fs : Fs) (file_path content : String) : String × Fs :=
  if is_path_allowed extra root file_path false = false then
    ("Error: Write access denied to file '" ++ file_path ++ "'.", fs)
  else
    let full := resolvePath root file_path
    let bk := _backup_file_if_needed fs root backupDir full
    let fs2 := fsUpdate bk.2 full content
    (if bk.1 == "" then "'" ++ file_path ++ "' への書き込みが成功しました。"
     else "'" ++ file_path ++ "' への書き込みが成功しました。" ++ "\n" ++ bk.1, fs2)

/-! ## Helper lemmas -/

theorem lastOfAppendSingleton {α : Type} (l : List α) (a : α) :
    (l ++ [a]).getLast? = some a := by
  induction l with
  | nil => rfl
  | cons x xs ih =>
    rw [List.cons_append]
    cases h : xs ++ [a] with
    | nil => exact absurd h (by simp)
    | cons y ys => rw [List.getLast?_cons_cons, ← h, ih]

/-- Branch-free form of `is_path_allowed` for case analysis. -/
theorem is_path_allowed_eq (extra : List String → Bool) (root : List String)
    (path : String) (fr : Bool) :
    is_path_allowed extra root path fr =
      (if strStartsWith (renderAbs (resolvePath root path)) (renderAbs root) = false then false
       else if defaultIgnoreMatch (relpathComps (resolvePath root path) root) ||
           extra (relpathComps (resolvePath root path) root) then false
       else if !fr && protectedWriteNames.contains (basenameOf (resolvePath root path)) then false
       else true) := by
  unfold is_path_allowed is_path_allowed_guarded is_path_allowed_body
  dsimp only
  split_ifs <;> rfl

theorem commonPrefixLen_le_left : ∀ a b : List String, commonPrefixLen a b ≤ a.length
  | [], _ => by simp [commonPrefixLen]
  | _ :: _, [] => by simp [commonPrefixLen]
  | x :: xs, y :: ys => by
    unfold commonPrefixLen
    split_ifs
    · exact Nat.succ_le_succ (commonPrefixLen_le_left xs ys)
    · simp

theorem commonPrefixLen_le_right : ∀ a b : List String, commonPrefixLen a b ≤ b.length
  | [], _ => by simp [commonPrefixLen]
  | _ :: _, [] => by simp [commonPrefixLen]
  | x :: xs, y :: ys => by
    unfold commonPrefixLen
    split_ifs
    · exact Nat.succ_le_succ (commonPrefixLen_le_right xs ys)
    · simp

/-- The backup destination can never coincide with the written file: it sits
two directory levels (the log directory and the session directory) deeper. -/
theorem backup_dest_ne (root full : List String) (sess : String) :
    root ++ ["agent_log", sess] ++ relpathComps full root ≠ full := by
  intro h
  have hc1 := commonPrefixLen_le_left full root
  have hc2 := commonPrefixLen_le_right full root
  have hlen := congrArg List.length h
  simp only [relpathComps] at hlen
  split_ifs at hlen with hcase
  · rw [Bool.and_eq_true] at hcase
    have h2 : full.drop (commonPrefixLen full root) = [] := by
      simpa [List.isEmpty_iff] using hcase.2
    have h3 : full.length - commonPrefixLen full root = 0 := by
      simpa using congrArg List.length h2
    simp [List.length_append] at hlen
    omega
  · simp [List.length_append] at hlen
    omega

/-! ## Claim theorems -/

/-- C1 (claim refuted — code bug): the claim says every path resolving
outside the project root is denied for both intents. The root check is
`full_path.startswith(ROOT_DIRECTORY)`, a bare string test, so a sibling
directory whose name extends the root's name as a string passes it. With
root `/home/user/project`, the path `../project_backup/secret.txt` resolves
to `/home/user/project_backup/secret.txt` — outside the root tree
(`underRoot` is false) — yet `is_path_allowed` returns true for read and
for write, with the built-in deny list as the compiled ignore spec. -/
theorem c1_prefix_escape_eval :
    resolvePath ["home", "user", "project"] "../project_backup/secret.txt" =
      ["home", "user", "project_backup", "secret.txt"] ∧
    underRoot ["home", "user", "project"]
      (resolvePath ["home", "user", "project"] "../project_backup/secret.txt") = false ∧
    is_path_allowed (fun _ => false) ["home", "user", "project"]
      "../project_backup/secret.txt" true = true ∧
    is_path_allowed (fun _ => false) ["home", "user", "project"]
      "../project_backup/secret.txt" false = true := by
  refine ⟨by decide, by decide, by decide, by decide⟩

/-- C3: the empty plan short-circuits to a success result whose `results` is
exactly `[thought]`, with `failed_step` and `error_message` unset and an
empty invocation log (no tool is invoked). -/
theorem c3_empty_plan (env : ToolEnv) (thought : String) :
    execute_plan env ⟨thought, []⟩ = (⟨"success", [thought], none, none⟩, []) := rfl

/-- C4: for write intent every path whose resolved basename is one of the
protected filenames is denied, whatever the ignore-file contributes
(`extra` is arbitrary); and write permission implies read permission, so
write protection is a superset of read protection. -/
theorem c4_write_protected_names (extra : List String → Bool) (root : List String)
    (path : String) :
    (protectedWriteNames.contains (basenameOf (resolvePath root path)) = true →
      is_path_allowed extra root path false = false) ∧
    (is_path_allowed extra root path false = true →
      is_path_allowed extra root path true = true) := by
  constructor
  · intro hb
    rw [is_path_allowed_eq]
    by_cases h1 : strStartsWith (renderAbs (resolvePath root path)) (renderAbs root) = false
    · rw [if_pos h1]
    · rw [if_neg h1]
      by_cases h2 : (defaultIgnoreMatch (relpathComps (resolvePath root path) root) ||
          extra (relpathComps (resolvePath root path) root)) = true
      · rw [if_pos h2]
      · rw [if_neg h2]
        rw [if_pos (show (!false &&
            protectedWriteNames.contains (basenameOf (resolvePath root path))) = true by
          rw [Bool.not_false, Bool.true_and]; exact hb)]
  · intro hw
    rw [is_path_allowed_eq] at hw
    rw [is_path_allowed_eq]
    by_cases h1 : strStartsWith (renderAbs (resolvePath root path)) (renderAbs root) = false
    · rw [if_pos h1] at hw
      exact absurd hw (by simp)
    · rw [if_neg h1] at hw
      rw [if_neg h1]
      by_cases h2 : (defaultIgnoreMatch (relpathComps (resolvePath root path) root) ||
          extra (relpathComps (resolvePath root path) root)) = true
      · rw [if_pos h2] at hw
        exact absurd hw (by simp)
      · rw [if_neg h2]
        rw [if_neg (show ¬((!true &&
            protectedWriteNames.contains (basenameOf (resolvePath root path))) = true) by simp)]

/-- C4 witness: `.env` (protected) is write-denied even with an empty
ignore-file; `src/app.py` is write-allowed, hence read-allowed. -/
theorem c4_write_protected_names_witness :
    is_path_allowed (fun _ => false) ["proj"] "config/.env" false = false ∧
    is_path_allowed (fun _ => false) ["proj"] "src/app.py" true = true :=
  ⟨(c4_write_protected_names (fun _ => false) ["proj"] "config/.env").1 (by decide),
   (c4_write_protected_names (fun _ => false) ["proj"] "src/app.py").2 (by decide)⟩

/-- C8: when the verifier's underlying judgment call raises, `verify_task`
returns a failure `VerificationResult` with the fixed non-empty generic
feedback instead of propagating: the exception is absorbed. -/
theorem c8_verifier_exception_downgrade (e : String) :
    (verify_task (Except.error e)).is_success = false ∧
    (verify_task (Except.error e)).feedback ≠ "" :=
  ⟨rfl, by
    show ¬(("検証の最終判断プロセスで予期せぬエラーが発生しました。" : String) = "")
    decide⟩

/-- C9: `is_path_allowed` is fail-closed: whatever exception the path
resolution or the ignore-pattern matching raises inside the body, the
`try/except` wrapper turns it into `false` (access denied); by construction
the wrapper always returns a boolean. -/
theorem c9_fail_closed (resolveE : String → Except String (List String))
    (matchE : List String → Except String Bool) (root : List String)
    (path : String) (for_read : Bool) (e : String)
    (h : is_path_allowed_body resolveE matchE root path for_read = Except.error e) :
    is_path_allowed_guarded resolveE matchE root path for_read = false := by
  unfold is_path_allowed_guarded
  rw [h]

/-- C9 witness: a resolution that raises makes the guarded predicate deny. -/
theorem c9_fail_closed_witness :
    is_path_allowed_body (fun _ => Except.error "resolution failed")
      (fun _ => Except.ok false) ["r"] "a" true = Except.error "resolution failed" ∧
    is_path_allowed_guarded (fun _ => Except.error "resolution failed")
      (fun _ => Except.ok false) ["r"] "a" true = false :=
  ⟨rfl, c9_fail_closed _ _ _ _ _ _ rfl⟩

/-- C10: a command in which some forbidden keyword occurs as a standalone
word (space-separated, at the start, at the end, or as the whole command,
case-insensitively) is refused: the subprocess is never spawned and the
returned string is the refusal naming a matching forbidden keyword. -/
theorem c10_forbidden_keyword_blocks (exec : String → String) (command k : String)
    (hk : k ∈ FORBIDDEN_COMMANDS)
    (hm : matchesKeyword (lowerStr command) k = true) :
    (run_shell_command exec command).2 = false ∧
    ∃ k2, k2 ∈ FORBIDDEN_COMMANDS ∧ matchesKeyword (lowerStr command) k2 = true ∧
      (run_shell_command exec command).1 =
        "Error: Command contains forbidden keyword: '" ++ k2 ++
          "'. Execution denied for security reasons." := by
  have hsome : (FORBIDDEN_COMMANDS.find? (fun x => matchesKeyword (lowerStr command) x)).isSome := by
    rw [List.find?_isSome]
    exact ⟨k, hk, hm⟩
  obtain ⟨k2, hfind⟩ := Option.isSome_iff_exists.mp hsome
  have hmem := List.mem_of_find?_eq_some hfind
  have hp := List.find?_some hfind
  refine ⟨?_, k2, hmem, hp, ?_⟩
  · simp only [run_shell_command]
    rw [hfind]
  · simp only [run_shell_command]
    rw [hfind]

/-- C10 witness: `sudo ls` is refused without spawning. -/
theorem c10_forbidden_keyword_blocks_witness :
    ("sudo" ∈ FORBIDDEN_COMMANDS ∧ matchesKeyword (lowerStr "sudo ls") "sudo" = true) ∧
    (run_shell_command (fun _ => "") "sudo ls").2 = false :=
  ⟨⟨by decide, by decide⟩,
   (c10_forbidden_keyword_blocks (fun _ => "") "sudo ls" "sudo" (by decide) (by decide)).1⟩

/-- C6 (claim refuted — code bug): the claim says the validation-failure
correction loop runs through a separate, small bounded retry counter and so
always terminates. In the source `create_plan` merely calls itself with the
validation error as feedback — there is no counter — so against a planner
that persistently produces an invalid plan the loop never produces a plan
however much recursion depth (`fuel`) it is allowed: the recursion is
bounded only by the interpreter's call stack. -/
theorem c6_no_bounded_retry (reg : String → Option ToolSchema)
    (planner : Option String → ExecutionPlan)
    (hbad : ∀ fb, ∃ e, _validate_plan reg (planner fb) = Except.error e) :
    ∀ fb fuel, create_plan reg planner fb fuel = none := by
  intro fb fuel
  induction fuel generalizing fb with
  | zero => rfl
  | succ n ih =>
    obtain ⟨e, he⟩ := hbad fb
    simp only [create_plan]
    rw [he]
    exact ih _

/-- C6 witness: a planner stub that always emits a single step naming a
nonexistent tool is persistently invalid, and `create_plan` yields nothing
at recursion depth 5 (nor at any other). -/
theorem c6_no_bounded_retry_witness :
    (∀ fb : Option String, ∃ e, _validate_plan (fun _ => none)
      ((fun _ => (⟨"t", [⟨"no_such_tool", []⟩]⟩ : ExecutionPlan)) fb) = Except.error e) ∧
    create_plan (fun _ => none) (fun _ => ⟨"t", [⟨"no_such_tool", []⟩]⟩) none 5 = none :=
  ⟨fun _ => ⟨_, rfl⟩,
   c6_no_bounded_retry (fun _ => none) (fun _ => ⟨"t", [⟨"no_such_tool", []⟩]⟩)
     (fun _ => ⟨_, rfl⟩) none 5⟩

/-- C7 (claim refuted — code bug): in exactly the claim's scenario — a
planner stub always producing a non-empty plan whose single step fails (its
tool is in no dispatcher) and a verifier stub always returning failure —
`run_agent_cycle` does not make 3 planner calls and terminate normally. It
binds the executor's narration generator without consuming it and
immediately reads `.status` off the generator object, so after exactly 1
planner call an `AttributeError` propagates to the caller; the
attempts-exhausted message carrying the feedback is unreachable. -/
theorem c7_attribute_error_on_first_attempt (t fb rep obj : String) (step : ToolCall)
    (h0 : List String) :
    (run_agent_cycle ⟨fun _ _ => ⟨t, [step]⟩, fun _ => none,
        fun _ _ _ => ⟨false, fb⟩, fun _ _ _ => rep⟩ obj h0).1 =
      Except.error "AttributeError: 'generator' object has no attribute 'status'" ∧
    (run_agent_cycle ⟨fun _ _ => ⟨t, [step]⟩, fun _ => none,
        fun _ _ _ => ⟨false, fb⟩, fun _ _ _ => rep⟩ obj h0).2 = 1 :=
  ⟨rfl, rfl⟩

/-- A failing step at the head of the remaining plan terminates the loop
with the failure record for that step. -/
theorem execSteps_fail_head (env : ToolEnv) (s : ToolCall) (post : List ToolCall)
    (i : Nat) (results : List String) (log : List Nat)
    (hs : isOkOutcome (stepOutcome env s) = false) :
    execSteps env (s :: post) i results log =
      (⟨"failure", results ++ [stepErrText s (stepOutcome env s)], some i,
        some (stepErrText s (stepOutcome env s))⟩,
       if stepInvokes (stepOutcome env s) then log ++ [i] else log) := by
  cases ho : stepOutcome env s with
  | ok r => rw [ho] at hs; simp [isOkOutcome] at hs
  | notFound => simp only [execSteps, ho]
  | exn e => simp only [execSteps, ho]
  | reported r => simp only [execSteps, ho]

/-- A succeeding step at the head advances the loop, recording its result
and its invocation. -/
theorem execSteps_ok_head (env : ToolEnv) (x : ToolCall) (rest : List ToolCall)
    (i : Nat) (results : List String) (log : List Nat) (r : String)
    (hx : stepOutcome env x = StepOutcome.ok r) :
    execSteps env (x :: rest) i results log =
      execSteps env rest (i + 1) (results ++ [r]) (log ++ [i]) := by
  simp only [execSteps, hx, stepInvokes]
  simp

/-- Core fail-fast invariant of the step loop: if every step of `pre`
succeeds and `s` fails, the loop run from index `i` stops at `s` with the
accumulated successes plus `s`'s error text, and only invokes steps up to
`s`'s index. -/
theorem execSteps_first_fail (env : ToolEnv) (s : ToolCall)
    (hs : isOkOutcome (stepOutcome env s) = false) :
    ∀ (pre : List ToolCall), (∀ x ∈ pre, isOkOutcome (stepOutcome env x) = true) →
    ∀ (post : List ToolCall) (i : Nat) (results : List String) (log : List Nat),
      (execSteps env (pre ++ s :: post) i results log).1.status = "failure" ∧
      (execSteps env (pre ++ s :: post) i results log).1.failed_step = some (i + pre.length) ∧
      (execSteps env (pre ++ s :: post) i results log).1.results.length =
        results.length + pre.length + 1 ∧
      (execSteps env (pre ++ s :: post) i results log).1.results.getLast? =
        some (stepErrText s (stepOutcome env s)) ∧
      (execSteps env (pre ++ s :: post) i results log).1.error_message =
        some (stepErrText s (stepOutcome env s)) ∧
      ∀ j ∈ (execSteps env (pre ++ s :: post) i results log).2, j ∈ log ∨ j ≤ i + pre.length := by
  intro pre
  induction pre with
  | nil =>
    intro _ post i results log
    rw [List.nil_append, execSteps_fail_head env s post i results log hs]
    refine ⟨rfl, by simp, by simp, lastOfAppendSingleton _ _, rfl, ?_⟩
    intro j hj
    by_cases hinv : stepInvokes (stepOutcome env s) = true
    · rw [if_pos hinv] at hj
      rcases List.mem_append.mp hj with h' | h'
      · exact Or.inl h'
      · right
        simp only [List.mem_singleton] at h'
        simp only [List.length_nil]
        omega
    · rw [if_neg hinv] at hj
      exact Or.inl hj
  | cons x xs ih =>
    intro hpre post i results log
    obtain ⟨r, hr⟩ : ∃ r, stepOutcome env x = StepOutcome.ok r := by
      have hx := hpre x (by simp)
      cases hxo : stepOutcome env x with
      | ok r => exact ⟨r, rfl⟩
      | notFound => rw [hxo] at hx; simp [isOkOutcome] at hx
      | exn e => rw [hxo] at hx; simp [isOkOutcome] at hx
      | reported rr => rw [hxo] at hx; simp [isOkOutcome] at hx
    rw [List.cons_append, execSteps_ok_head env x (xs ++ s :: post) i results log r hr]
    have ihh := ih (fun y hy => hpre y (List.mem_cons_of_mem _ hy)) post (i + 1)
      (results ++ [r]) (log ++ [i])
    refine ⟨ihh.1, ?_, ?_, ihh.2.2.2.1, ihh.2.2.2.2.1, ?_⟩
    · rw [ihh.2.1]
      congr 1
      simp only [List.length_cons]
      omega
    · rw [ihh.2.2.1]
      simp only [List.length_append, List.length_cons, List.length_nil]
      omega
    · intro j hj
      rcases ihh.2.2.2.2.2 j hj with hin | hle
      · rcases List.mem_append.mp hin with h' | h'
        · exact Or.inl h'
        · right
          simp only [List.mem_singleton] at h'
          simp only [List.length_cons]
          omega
      · right
        simp only [List.length_cons] at hle ⊢
        omega

/-- C2: for a non-empty plan whose steps before `s` all succeed and whose
step `s` (at 1-based position `k = pre.length + 1`) is the first to fail —
by unknown tool, raised exception, or error-marker match — `execute_plan`
returns a failure result with `failed_step = k`, exactly `k` entries in
`results` whose last is the failing step's error text, that text as
`error_message`, and no tool of any step after `k` is ever invoked. -/
theorem c2_fail_fast (env : ToolEnv) (thought : String) (pre : List ToolCall)
    (s : ToolCall) (post : List ToolCall)
    (hpre : ∀ x ∈ pre, isOkOutcome (stepOutcome env x) = true)
    (hs : isOkOutcome (stepOutcome env s) = false) :
    (execute_plan env ⟨thought, pre ++ s :: post⟩).1.status = "failure" ∧
    (execute_plan env ⟨thought, pre ++ s :: post⟩).1.failed_step = some (pre.length + 1) ∧
    (execute_plan env ⟨thought, pre ++ s :: post⟩).1.results.length = pre.length + 1 ∧
    (execute_plan env ⟨thought, pre ++ s :: post⟩).1.results.getLast? =
      some (stepErrText s (stepOutcome env s)) ∧
    (execute_plan env ⟨thought, pre ++ s :: post⟩).1.error_message =
      some (stepErrText s (stepOutcome env s)) ∧
    ∀ j ∈ (execute_plan env ⟨thought, pre ++ s :: post⟩).2, j ≤ pre.length + 1 := by
  have hplan : execute_plan env ⟨thought, pre ++ s :: post⟩ =
      execSteps env (pre ++ s :: post) 1 [] [] := by
    simp [execute_plan]
  rw [hplan]
  obtain ⟨a, b, c, d, e2, f⟩ := execSteps_first_fail env s hs pre hpre post 1 [] []
  refine ⟨a, ?_, ?_, d, e2, ?_⟩
  · rw [b]
    congr 1
    omega
  · simpa using c
  · intro j hj
    rcases f j hj with h' | h'
    · simp at h'
    · omega

/-- C2 witness: plan [good, missing, good2] with only `good` registered —
execution fails at step 2 with 2 results and never reaches step 3. -/
theorem c2_fail_fast_witness :
    (∀ x ∈ [(⟨"good", []⟩ : ToolCall)],
      isOkOutcome (stepOutcome (fun n =>
        if n = "good" then some ⟨["x"], fun _ => Except.ok "done"⟩ else none) x) = true) ∧
    (execute_plan (fun n => if n = "good" then some ⟨["x"], fun _ => Except.ok "done"⟩ else none)
        ⟨"th", [⟨"good", []⟩] ++ ⟨"miss", []⟩ :: [⟨"good2", []⟩]⟩).1.failed_step = some 2 :=
  ⟨by decide,
   (c2_fail_fast (fun n => if n = "good" then some ⟨["x"], fun _ => Except.ok "done"⟩ else none)
      "th" [⟨"good", []⟩] ⟨"miss", []⟩ [⟨"good2", []⟩] (by decide) (by decide)).2.1⟩

/-- C5: an accepted `write_file` to an existing file (session backup
directory `root/agent_log/<sess>`): if the file's name is trackable, exactly
one backup appears — at the same project-relative path inside the session
backup directory, byte-identical to the pre-write content — before the
write lands, and nothing else changes; if the name is untracked, only the
written file changes and no backup is produced. -/
theorem c5_backup_on_tracked_write (extra : List String → Bool) (root : List String)
    (sess : String) (fs : Fs) (file_path content old : String)
    (hallow : is_path_allowed extra root file_path false = true)
    (hfile : fs (resolvePath root file_path) = some old) :
    (trackable (basenameOf (resolvePath root file_path)) = true →
      (write_file extra root (root ++ ["agent_log", sess]) fs file_path content).2
          (root ++ ["agent_log", sess] ++ relpathComps (resolvePath root file_path) root) =
        some old ∧
      (write_file extra root (root ++ ["agent_log", sess]) fs file_path content).2
          (resolvePath root file_path) = some content ∧
      ∀ q, q ≠ root ++ ["agent_log", sess] ++ relpathComps (resolvePath root file_path) root →
        q ≠ resolvePath root file_path →
        (write_file extra root (root ++ ["agent_log", sess]) fs file_path content).2 q = fs q) ∧
    (trackable (basenameOf (resolvePath root file_path)) = false →
      (write_file extra root (root ++ ["agent_log", sess]) fs file_path content).2
          (resolvePath root file_path) = some content ∧
      ∀ q, q ≠ resolvePath root file_path →
        (write_file extra root (root ++ ["agent_log", sess]) fs file_path content).2 q = fs q) := by
  constructor
  · intro ht
    have hbk : _backup_file_if_needed fs root (root ++ ["agent_log", sess])
        (resolvePath root file_path) =
        ("バックアップを作成しました: " ++ renderAbs (root ++ ["agent_log", sess] ++
          relpathComps (resolvePath root file_path) root),
         fsUpdate fs (root ++ ["agent_log", sess] ++
           relpathComps (resolvePath root file_path) root) old) := by
      simp only [_backup_file_if_needed, hfile, ht]
      simp
    have h2 : (write_file extra root (root ++ ["agent_log", sess]) fs file_path content).2 =
        fsUpdate (fsUpdate fs (root ++ ["agent_log", sess] ++
          relpathComps (resolvePath root file_path) root) old)
          (resolvePath root file_path) content := by
      simp only [write_file, hallow, hbk]
      simp
    have hne := backup_dest_ne root (resolvePath root file_path) sess
    have hne2 : root ++ "agent_log" :: sess :: relpathComps (resolvePath root file_path) root ≠
        resolvePath root file_path := by simpa using hne
    refine ⟨?_, ?_, ?_⟩
    · rw [h2]
      simp [fsUpdate, hne2]
    · rw [h2]
      simp [fsUpdate]
    · intro q hq1 hq2
      have hq1b : q ≠ root ++ "agent_log" :: sess ::
          relpathComps (resolvePath root file_path) root := by simpa using hq1
      rw [h2]
      simp [fsUpdate, hq1b, hq2]
  · intro ht
    have hbk : _backup_file_if_needed fs root (root ++ ["agent_log", sess])
        (resolvePath root file_path) = ("", fs) := by
      simp only [_backup_file_if_needed, hfile, ht]
      simp
    have h2 : (write_file extra root (root ++ ["agent_log", sess]) fs file_path content).2 =
        fsUpdate fs (resolvePath root file_path) content := by
      simp only [write_file, hallow, hbk]
      simp
    refine ⟨?_, ?_⟩
    · rw [h2]
      simp [fsUpdate]
    · intro q hq
      rw [h2]
      simp [fsUpdate, hq]

/-- C5 witness: writing `src/app.py` (tracked `.py`) over existing content
puts the old bytes at `agent_log/<sess>/src/app.py`. -/
theorem c5_backup_on_tracked_write_witness :
    trackable (basenameOf (resolvePath ["proj"] "src/app.py")) = true ∧
    (write_file (fun _ => false) ["proj"] (["proj"] ++ ["agent_log", "s"])
        (fun q => if q = ["proj", "src", "app.py"] then some "OLD" else none)
        "src/app.py" "NEW").2
      (["proj"] ++ ["agent_log", "s"] ++
        relpathComps (resolvePath ["proj"] "src/app.py") ["proj"]) = some "OLD" :=
  ⟨by decide,
   ((c5_backup_on_tracked_write (fun _ => false) ["proj"] "s"
      (fun q => if q = ["proj", "src", "app.py"] then some "OLD" else none)
      "src/app.py" "NEW" "OLD" (by decide) (by decide)).1 (by decide)).1⟩

end UKAgent
